import Mathlib

/-!
Shallow embedding of the transactional bookkeeping core of the RetailOS
repository: the sale-posting path of `src/src/pages/POS.tsx`
(`handleFinalizeSale`), the reversal and amount-adjustment paths of the
Sales archive view (`handleReverseSale`, `handleUpdateAmount`), the
outflow-entry path of the Outflow view (`handleSubmit`), and the
`business_summary` SQL view shipped in the Dashboard view.

The backing store (two Supabase tables, `inventory` and `ledger`) is
modelled as a pair of lists; each remote call in the source
(insert / select-single / update / delete) is one primitive function on
that state.  Identifiers are uuid strings in the source and are modelled
as `Nat`; JS numbers used for money and quantities are modelled as `Int`
(all arithmetic in these paths is `+`, `-` and `*` on integral values).
-/

namespace RetailOS

/-- Transaction types of the `transaction_type` union in `src/src/types.ts`:
`'sale' | 'expense' | 'capital_deduction'`.  (The repository's views spell
the third kind `capital_deduction`; the `business_summary` SQL also accepts
the spellings `capital_withdrawal` / `CAPITAL_WITHDRAWAL`, which no writer
in the repository ever produces.) -/
inductive TransactionType where
  | sale
  | expense
  | capital_deduction
deriving DecidableEq, Repr

/-- One row of the `inventory` table, after the fields used by the
transactional paths (`InventoryItem` in the types module). -/
structure InventoryItem where
  id : Nat
  name : String
  code : String
  cost_price : Int
  selling_price : Int
  quantity : Int
  category_id : Nat
deriving DecidableEq, Repr

/-- One row of the `ledger` table (`LedgerEntry` in the types module).
`inventory_item_id` and `quantity` are optional (absent on outflow rows);
`amount` is optional because the POS insert never supplies it. -/
structure LedgerEntry where
  id : Nat
  category_id : Nat
  inventory_item_id : Option Nat
  quantity : Option Int
  amount : Option Int
  selling_price : Option Int
  cost : Option Int
  transaction_type : TransactionType
  fund_source : String
deriving DecidableEq, Repr

/-- One row of the `categories` table. -/
structure Category where
  id : Nat
  name : String
  initial_capital : Int
deriving DecidableEq, Repr

/-- The shared mutable store: the `inventory` and `ledger` tables. -/
structure DB where
  inventory : List InventoryItem
  ledger : List LedgerEntry
deriving DecidableEq, Repr

/-- `supabase.from('inventory').select('quantity').eq('id', iid).single()`:
returns the quantity of the (primary-key unique) row, or an error when the
row is missing.  The model returns the first match of the list. -/
def fetchQuantity (db : DB) (iid : Nat) : Option Int :=
  (db.inventory.find? (fun it => it.id == iid)).map (fun it => it.quantity)

/-- `supabase.from('inventory').update({quantity: v}).eq('id', iid)`:
sets the quantity of every row whose id matches. -/
def updateQuantity (db : DB) (iid : Nat) (v : Int) : DB :=
  { db with inventory :=
      db.inventory.map (fun it => if it.id == iid then { it with quantity := v } else it) }

/-- `supabase.from('ledger').insert(entries)`: appends rows. -/
def insertLedger (db : DB) (es : List LedgerEntry) : DB :=
  { db with ledger := db.ledger ++ es }

/-- `supabase.from('ledger').delete().eq('id', eid)`: removes every row
whose id matches; deleting zero rows is not an error. -/
def deleteLedger (db : DB) (eid : Nat) : DB :=
  { db with ledger := db.ledger.filter (fun e => e.id != eid) }

/-- Outcome of a client handler: whether it reached its success branch, and
the store state when it returned (on a thrown error, the mutations already
committed stay committed — the source has no rollback). -/
structure TxOutcome where
  success : Bool
  db : DB
deriving DecidableEq, Repr

/-- One line of the POS cart: `{item: InventoryItem, quantity: number}`. -/
structure CartLine where
  item : InventoryItem
  quantity : Int
deriving DecidableEq, Repr

/-- The ledger row built for one cart line in `handleFinalizeSale`
(POS.tsx, step 1): `category_id`, `inventory_item_id`, `quantity`,
`selling_price = item.selling_price * quantity`,
`cost = (item.cost_price || 0) * quantity`, `transaction_type: 'sale'`,
`fund_source: paymentMethod` — and no `amount` field. -/
def mkSaleEntry (eid : Nat) (paymentMethod : String) (c : CartLine) : LedgerEntry :=
  { id := eid
    category_id := c.item.category_id
    inventory_item_id := some c.item.id
    quantity := some c.quantity
    amount := none
    selling_price := some (c.item.selling_price * c.quantity)
    cost := some (c.item.cost_price * c.quantity)
    transaction_type := .sale
    fund_source := paymentMethod }

/-- Step 3 of `handleFinalizeSale` (POS.tsx): for each cart line in order,
fetch the latest quantity, throw on a missing row, throw on
`currentStock < cartItem.quantity` ("Stock mismatch"), otherwise update the
row to `currentStock - cartItem.quantity`.  A throw aborts the loop and the
handler, keeping all mutations made so far. -/
def decrementLoop (db : DB) : List CartLine → TxOutcome
  | [] => ⟨true, db⟩
  | c :: rest =>
    match fetchQuantity db c.item.id with
    | none => ⟨false, db⟩
    | some currentStock =>
      if currentStock < c.quantity then ⟨false, db⟩
      else decrementLoop (updateQuantity db c.item.id (currentStock - c.quantity)) rest

/-- `handleFinalizeSale` (POS.tsx lines 88-148): on a non-empty cart,
first insert all prepared ledger rows in one call, then run the
per-item stock check-and-decrement loop.  `eids` are the primary keys the
store assigns to the inserted rows, in cart order. -/
def handleFinalizeSale (db : DB) (cart : List CartLine) (eids : List Nat)
    (paymentMethod : String) : TxOutcome :=
  if cart.isEmpty then ⟨false, db⟩
  else
    decrementLoop (insertLedger db ((cart.zip eids).map fun p => mkSaleEntry p.2 paymentMethod p.1))
      cart

/-- `handleReverseSale` (Sales archive view, `src/unnamed/part_005` lines
56-96): given the client-held copy of a sale row, when
`sale.inventory_item_id && sale.quantity` is truthy (a uuid string id is
truthy whenever present; a number is truthy when non-zero) it fetches the
item's quantity — throwing, with no mutation, when the item row is
missing — and updates it to `(currentItem?.quantity || 0) + sale.quantity`;
then it deletes the ledger row by id.  The delete is not conditioned on the
row existing and reports no error when zero rows match. -/
def handleReverseSale (db : DB) (sale : LedgerEntry) : TxOutcome :=
  match sale.inventory_item_id, sale.quantity with
  | some iid, some q =>
    if q != 0 then
      match fetchQuantity db iid with
      | none => ⟨false, db⟩
      | some currentQty => ⟨true, deleteLedger (updateQuantity db iid (currentQty + q)) sale.id⟩
    else ⟨true, deleteLedger db sale.id⟩
  | _, _ => ⟨true, deleteLedger db sale.id⟩

/-- `handleUpdateAmount` (Sales archive view, `src/unnamed/part_005` lines
98-112): `update({ amount: editAmount }).eq('id', sale.id)` — sets the
amount field of the matching ledger rows and touches nothing else. -/
def handleUpdateAmount (db : DB) (eid : Nat) (newAmount : Int) : DB :=
  { db with ledger :=
      db.ledger.map (fun e => if e.id == eid then { e with amount := some newAmount } else e) }

/-- The outflow form state of the Outflow view (`src/unnamed/part_006`). -/
structure OutflowForm where
  category_id : Nat
  amount : Int
  transaction_type : TransactionType
  fund_source : String
deriving DecidableEq, Repr

/-- `handleSubmit` (Outflow view, `src/unnamed/part_006` lines 36-67):
inserts one ledger row carrying the form's category, amount, type and fund
source.  No precondition of any kind is checked before the insert. -/
def handleSubmit (db : DB) (f : OutflowForm) (eid : Nat) : TxOutcome :=
  ⟨true, insertLedger db
    [{ id := eid
       category_id := f.category_id
       inventory_item_id := none
       quantity := none
       amount := some f.amount
       selling_price := none
       cost := none
       transaction_type := f.transaction_type
       fund_source := f.fund_source }]⟩

/-- `CASE WHEN l.transaction_type = 'sale' THEN l.amount ELSE 0 END` of the
`business_summary` view; a NULL amount contributes nothing to SQL `SUM`,
matching `getD 0`. -/
def saleCase (e : LedgerEntry) : Int :=
  if e.transaction_type = .sale then e.amount.getD 0 else 0

/-- The expense case of the `business_summary` view. -/
def expenseCase (e : LedgerEntry) : Int :=
  if e.transaction_type = .expense then e.amount.getD 0 else 0

/-- The capital-withdrawal case of the `business_summary` view
(`transaction_type IN ('capital_withdrawal','CAPITAL_WITHDRAWAL','capital_deduction')`;
the repository's writers only produce `capital_deduction`). -/
def withdrawalCase (e : LedgerEntry) : Int :=
  if e.transaction_type = .capital_deduction then e.amount.getD 0 else 0

/-- One row of the `business_summary` view. -/
structure BusinessSummary where
  total_revenue : Int
  total_profit : Int
  total_expenses : Int
  capital_health : Int
deriving DecidableEq, Repr

/-- The `business_summary` view of `src/unnamed/part_003` (lines 122-150),
for one category: group the ledger rows joined on `category_id` and fold
the three CASE sums (`COALESCE(..., 0)` and SQL `SUM`'s NULL handling both
collapse to a fold with 0 for absent amounts). -/
def business_summary (db : DB) (c : Category) : BusinessSummary :=
  let rows := db.ledger.filter (fun e => e.category_id == c.id)
  { total_revenue := (rows.map saleCase).sum
    total_profit := (rows.map saleCase).sum - (rows.map expenseCase).sum
    total_expenses := (rows.map expenseCase).sum
    capital_health := c.initial_capital - (rows.map withdrawalCase).sum }

/-!
Small-step view of one `handleFinalizeSale` run for a single-line cart.
The source issues three separate awaited network calls: the ledger insert,
the quantity select, and the quantity update; between consecutive calls the
store is live and visible to every other session.  Each call is one step.
-/

/-- The client-side state of one POS session finalizing a one-line cart:
which network call it will issue next (`phase` 0 = ledger insert, 1 =
quantity select plus the client-side stock check, 2 = quantity update,
3 = done), the quantity it last read, and its outcome. -/
structure PosSession where
  entry : LedgerEntry
  itemId : Nat
  qty : Int
  phase : Nat
  readQty : Int
  result : Option Bool
deriving DecidableEq, Repr

/-- Start state of a session that will post a sale of `qty` units of item
`itemId`, inserting ledger row `entry`. -/
def startSession (entry : LedgerEntry) (itemId : Nat) (qty : Int) : PosSession :=
  ⟨entry, itemId, qty, 0, 0, none⟩

/-- One network round trip of a POS session, exactly as `handleFinalizeSale`
issues them: insert the ledger row; then select the quantity and check
`currentStock < quantity` on the client; then update the row.  A failed
select or a failed check ends the session with `result = some false`. -/
def sessionStep (db : DB) (s : PosSession) : DB × PosSession :=
  match s.phase with
  | 0 => (insertLedger db [s.entry], { s with phase := 1 })
  | 1 =>
    match fetchQuantity db s.itemId with
    | none => (db, { s with phase := 3, result := some false })
    | some currentStock =>
      if currentStock < s.qty then (db, { s with phase := 3, result := some false })
      else (db, { s with phase := 2, readQty := currentStock })
  | 2 => (updateQuantity db s.itemId (s.readQty - s.qty), { s with phase := 3, result := some true })
  | _ => (db, s)

/-- Run `n` consecutive steps of a single session against the live store. -/
def runSteps (db : DB) (s : PosSession) : Nat → DB × PosSession
  | 0 => (db, s)
  | n + 1 =>
    let p := sessionStep db s
    runSteps p.1 p.2 n

/-- Interleave two sessions over the shared store under a schedule:
`true` lets session `a` take its next step, `false` session `b`. -/
def runSchedule (db : DB) (a b : PosSession) : List Bool → DB × PosSession × PosSession
  | [] => (db, a, b)
  | pick :: rest =>
    if pick then
      let p := sessionStep db a
      runSchedule p.1 p.2 b rest
    else
      let p := sessionStep db b
      runSchedule p.1 a p.2 rest

/-!
Sequences of engine operations, for the inventory invariant.
-/

/-- One invocation of the repository's sale-posting or reversal handler. -/
inductive EngineOp where
  | post (cart : List CartLine) (eids : List Nat) (paymentMethod : String)
  | reverse (sale : LedgerEntry)

/-- Apply one operation, keeping the store the handler left behind whether
it succeeded or threw. -/
def applyOp (db : DB) : EngineOp → DB
  | .post cart eids pm => (handleFinalizeSale db cart eids pm).db
  | .reverse s => (handleReverseSale db s).db

/-- Apply a finite sequence of operations in order. -/
def runOps (db : DB) : List EngineOp → DB
  | [] => db
  | op :: rest => runOps (applyOp db op) rest

/-- Every on-hand quantity in the store is non-negative. -/
def NonnegStock (db : DB) : Prop :=
  ∀ it ∈ db.inventory, 0 ≤ it.quantity

/-- A reversal request is well-formed when the recorded quantity it carries
(as fetched from the ledger) is non-negative; posts are unrestricted. -/
def wfOp : EngineOp → Prop
  | .post _ _ _ => True
  | .reverse s => 0 ≤ s.quantity.getD 0

/-! Concrete fixtures used by the claim theorems and witnesses. -/

/-- A sample inventory row (category 1, "Oils") with the given on-hand
quantity. -/
def oilFilter (q : Int) : InventoryItem :=
  { id := 1, name := "Oil Filter", code := "OF-1", cost_price := 60,
    selling_price := 100, quantity := q, category_id := 1 }

/-- A sample category with initial capital 1000. -/
def oilsCategory : Category :=
  { id := 1, name := "Oils", initial_capital := 1000 }

/-- A store holding exactly the sample item at the given quantity and an
empty ledger. -/
def storeWith (q : Int) : DB :=
  { inventory := [oilFilter q], ledger := [] }

/-- A capital-withdrawal request of the given amount against category 1,
as the Outflow form submits it. -/
def withdrawalForm (a : Int) : OutflowForm :=
  { category_id := 1, amount := a, transaction_type := .capital_deduction,
    fund_source := "Bank" }

end RetailOS

namespace RetailOS

/-- C1: the claim says a sale whose requested quantity exceeds the on-hand
quantity fails with the ledger and inventory exactly as before the call.
On the code, the ledger insert is issued before the stock check: finalizing
a one-unit sale against zero stock fails, leaves the inventory untouched,
but commits the new sale row to the ledger — the store is mutated. -/
theorem C1_failed_sale_commits_ledger_row :
    (handleFinalizeSale (storeWith 0) [⟨oilFilter 0, 1⟩] [100] "Cash").success = false ∧
    (handleFinalizeSale (storeWith 0) [⟨oilFilter 0, 1⟩] [100] "Cash").db.inventory =
      (storeWith 0).inventory ∧
    (handleFinalizeSale (storeWith 0) [⟨oilFilter 0, 1⟩] [100] "Cash").db.ledger =
      [mkSaleEntry 100 "Cash" ⟨oilFilter 0, 1⟩] ∧
    (handleFinalizeSale (storeWith 0) [⟨oilFilter 0, 1⟩] [100] "Cash").db.ledger ≠
      (storeWith 0).ledger := by
  decide

/-- C2: the claim says the ledger insert and the stock decrement commit as
one atomic unit with no state in which the entry exists without the
decrement.  On the code they are separate network round trips: after the
first round trip of a sale of 2 units against stock 5 the ledger already
holds the sale row while the quantity is still 5; the run then completes
successfully with quantity 3, and agrees with the big-step handler. -/
theorem C2_intermediate_state_between_insert_and_decrement :
    (runSteps (storeWith 5) (startSession (mkSaleEntry 31 "Cash" ⟨oilFilter 5, 2⟩) 1 2) 1).1.ledger =
      [mkSaleEntry 31 "Cash" ⟨oilFilter 5, 2⟩] ∧
    fetchQuantity (runSteps (storeWith 5) (startSession (mkSaleEntry 31 "Cash" ⟨oilFilter 5, 2⟩) 1 2) 1).1 1 =
      some 5 ∧
    (runSteps (storeWith 5) (startSession (mkSaleEntry 31 "Cash" ⟨oilFilter 5, 2⟩) 1 2) 3).2.result =
      some true ∧
    fetchQuantity (runSteps (storeWith 5) (startSession (mkSaleEntry 31 "Cash" ⟨oilFilter 5, 2⟩) 1 2) 3).1 1 =
      some 3 ∧
    (runSteps (storeWith 5) (startSession (mkSaleEntry 31 "Cash" ⟨oilFilter 5, 2⟩) 1 2) 3).1 =
      (handleFinalizeSale (storeWith 5) [⟨oilFilter 5, 2⟩] [31] "Cash").db := by
  decide

/-- C3: the claim says a capital withdrawal exceeding the category's
capital health fails with InsufficientFunds and inserts nothing.  On the
code the outflow handler checks nothing: against a category with initial
capital 1000 and no prior entries, a withdrawal of 1500 succeeds and is
inserted, driving capital health to -500.  (The second half of the claim
does hold: a withdrawal of 200 succeeds and leaves capital health 800.) -/
theorem C3_overdraft_withdrawal_succeeds :
    (handleSubmit { inventory := [], ledger := [] } (withdrawalForm 1500) 12).success = true ∧
    (handleSubmit { inventory := [], ledger := [] } (withdrawalForm 1500) 12).db.ledger ≠ [] ∧
    (business_summary (handleSubmit { inventory := [], ledger := [] } (withdrawalForm 1500) 12).db
      oilsCategory).capital_health = -500 ∧
    (handleSubmit { inventory := [], ledger := [] } (withdrawalForm 200) 12).success = true ∧
    (business_summary (handleSubmit { inventory := [], ledger := [] } (withdrawalForm 200) 12).db
      oilsCategory).capital_health = 800 := by
  decide

/-- The client-held copy of a sale row that has already been reversed
(deleted from the ledger): 2 units of item 1. -/
def staleSaleRow : LedgerEntry :=
  { id := 7, category_id := 1, inventory_item_id := some 1, quantity := some 2,
    amount := none, selling_price := some 200, cost := some 120,
    transaction_type := .sale, fund_source := "Cash" }

/-- C4: the claim says reversing an id that no longer refers to an existing
entry fails with NotFound and changes no store state.  On the code the
delete call reports no error for zero matching rows and the stock
restoration runs first: reversing an already-reversed sale of 2 units
reports success and raises the item's quantity from 5 to 7. -/
theorem C4_stale_reverse_silently_succeeds_and_restocks :
    (handleReverseSale (storeWith 5) staleSaleRow).success = true ∧
    fetchQuantity (handleReverseSale (storeWith 5) staleSaleRow).db 1 = some 7 ∧
    (handleReverseSale (storeWith 5) staleSaleRow).db ≠ storeWith 5 := by
  decide

/-- C7: the claim says that after posting a sale of $100 and an expense of
$40 the summary reports revenue 100, expenses 40, profit 60.  The POS
insert stores the sale's value in `selling_price` and never sets the
`amount` column the `business_summary` view sums, so on the code both
posts succeed but the summary reports revenue 0, profit -40, expenses 40
(capital health 1000). -/
theorem C7_pos_sale_missing_amount_breaks_summary :
    (handleFinalizeSale (storeWith 5) [⟨oilFilter 5, 1⟩] [11] "Cash").success = true ∧
    (handleSubmit (handleFinalizeSale (storeWith 5) [⟨oilFilter 5, 1⟩] [11] "Cash").db
      { category_id := 1, amount := 40, transaction_type := .expense,
        fund_source := "Petty Cash" } 12).success = true ∧
    business_summary
      (handleSubmit (handleFinalizeSale (storeWith 5) [⟨oilFilter 5, 1⟩] [11] "Cash").db
        { category_id := 1, amount := 40, transaction_type := .expense,
          fund_source := "Petty Cash" } 12).db oilsCategory =
      { total_revenue := 0, total_profit := -40, total_expenses := 40,
        capital_health := 1000 } := by
  decide

/-- C8: the claim says two concurrent one-unit sales against an item with
one unit on hand produce exactly one success and one InsufficientStock.
The code's check and decrement are separate round trips with no locking or
compare-and-swap: under the interleaving insert-A, insert-B, read-A,
read-B, write-A, write-B both sessions observe stock 1, both pass the
check, both report success, both sale rows are committed, and the final
quantity is 0. -/
theorem C8_concurrent_sales_both_succeed :
    (runSchedule (storeWith 1)
      (startSession (mkSaleEntry 21 "Cash" ⟨oilFilter 1, 1⟩) 1 1)
      (startSession (mkSaleEntry 22 "Card" ⟨oilFilter 1, 1⟩) 1 1)
      [true, false, true, false, true, false]).2.1.result = some true ∧
    (runSchedule (storeWith 1)
      (startSession (mkSaleEntry 21 "Cash" ⟨oilFilter 1, 1⟩) 1 1)
      (startSession (mkSaleEntry 22 "Card" ⟨oilFilter 1, 1⟩) 1 1)
      [true, false, true, false, true, false]).2.2.result = some true ∧
    fetchQuantity (runSchedule (storeWith 1)
      (startSession (mkSaleEntry 21 "Cash" ⟨oilFilter 1, 1⟩) 1 1)
      (startSession (mkSaleEntry 22 "Card" ⟨oilFilter 1, 1⟩) 1 1)
      [true, false, true, false, true, false]).1 1 = some 0 ∧
    (runSchedule (storeWith 1)
      (startSession (mkSaleEntry 21 "Cash" ⟨oilFilter 1, 1⟩) 1 1)
      (startSession (mkSaleEntry 22 "Card" ⟨oilFilter 1, 1⟩) 1 1)
      [true, false, true, false, true, false]).1.ledger.length = 2 := by
  decide

/-! Helper lemmas about the store primitives. -/

/-- Mapping a function that fixes every member of a list leaves the list
unchanged. -/
lemma map_id_of_mem {α : Type} {l : List α} {f : α → α} (h : ∀ x ∈ l, f x = x) :
    l.map f = l := by
  induction l with
  | nil => rfl
  | cons a t ih =>
    simp only [List.map_cons, List.cons.injEq]
    exact ⟨h a (List.mem_cons_self a t), ih fun x hx => h x (List.mem_cons_of_mem a hx)⟩

/-- A member whose id is unique in the list is what `find?` returns for
that id. -/
lemma find?_eq_some_of_uniq (l : List InventoryItem) (item : InventoryItem)
    (hmem : item ∈ l) (huniq : ∀ x ∈ l, x.id = item.id → x = item) :
    l.find? (fun it => it.id == item.id) = some item := by
  induction l with
  | nil => cases hmem
  | cons a t ih =>
    by_cases h : (a.id == item.id) = true
    · have : a = item := huniq a (List.mem_cons_self a t) (by simpa using h)
      simp [List.find?, h, this]
    · have hmem' : item ∈ t := by
        rcases List.mem_cons.mp hmem with rfl | ht
        · exact absurd (by simp) h
        · exact ht
      simp [List.find?, h,
        ih hmem' fun x hx => huniq x (List.mem_cons_of_mem a hx)]

/-- Reading the quantity of a uniquely-identified row, as stored. -/
lemma fetch_eq (db : DB) (item : InventoryItem)
    (hmem : item ∈ db.inventory)
    (huniq : ∀ x ∈ db.inventory, x.id = item.id → x = item) :
    fetchQuantity db item.id = some item.quantity := by
  simp [fetchQuantity, find?_eq_some_of_uniq _ _ hmem huniq]

/-- Reading a uniquely-identified row's quantity right after updating it
yields the written value. -/
lemma fetch_after_update (db : DB) (item : InventoryItem) (v : Int)
    (hmem : item ∈ db.inventory)
    (huniq : ∀ x ∈ db.inventory, x.id = item.id → x = item) :
    fetchQuantity (updateQuantity db item.id v) item.id = some v := by
  have hmem' : ({ item with quantity := v } : InventoryItem) ∈
      (updateQuantity db item.id v).inventory :=
    List.mem_map.mpr ⟨item, hmem, by simp⟩
  have huniq' : ∀ y ∈ (updateQuantity db item.id v).inventory,
      y.id = ({ item with quantity := v } : InventoryItem).id →
      y = { item with quantity := v } := by
    intro y hy hid
    obtain ⟨x, hx, hfx⟩ := List.mem_map.mp hy
    by_cases h : (x.id == item.id) = true
    · rw [if_pos h] at hfx
      have hxi : x = item := huniq x hx (by simpa using h)
      rw [← hfx, hxi]
    · rw [if_neg h] at hfx
      rw [← hfx] at hid
      exact absurd (by simpa using hid) h
  have hfind := find?_eq_some_of_uniq _ _ hmem' huniq'
  have hfind' : (updateQuantity db item.id v).inventory.find?
      (fun it => it.id == item.id) = some { item with quantity := v } := by
    simpa using hfind
  simp only [fetchQuantity]
  rw [hfind']
  rfl

/-- Two successive quantity updates of the same row collapse to the last
one. -/
lemma update_update (db : DB) (iid : Nat) (v w : Int) :
    updateQuantity (updateQuantity db iid v) iid w = updateQuantity db iid w := by
  unfold updateQuantity
  simp only [List.map_map]
  have hfun : ((fun it : InventoryItem => if it.id == iid then { it with quantity := w } else it) ∘
      fun it : InventoryItem => if it.id == iid then { it with quantity := v } else it) =
      fun it : InventoryItem => if it.id == iid then { it with quantity := w } else it := by
    funext x
    by_cases h : (x.id == iid) = true <;> simp [Function.comp, h]
  rw [hfun]

/-- Updating a row's quantity to the value it already has is the identity,
provided the id picks out a unique row. -/
lemma update_to_orig (db : DB) (item : InventoryItem)
    (huniq : ∀ x ∈ db.inventory, x.id = item.id → x = item) :
    updateQuantity db item.id item.quantity = db := by
  unfold updateQuantity
  have : db.inventory.map
      (fun it => if it.id == item.id then { it with quantity := item.quantity } else it) =
      db.inventory := by
    refine map_id_of_mem fun x hx => ?_
    by_cases h : x.id == item.id
    · have hx' : x = item := huniq x hx (by simpa using h)
      subst hx'
      simp [h]
    · simp [h]
  rw [this]

/-- Appending a fresh row and then filtering it back out restores the
list. -/
lemma filter_append_fresh (l : List LedgerEntry) (e : LedgerEntry)
    (hfresh : ∀ x ∈ l, x.id ≠ e.id) :
    (l ++ [e]).filter (fun x => x.id != e.id) = l := by
  rw [List.filter_append]
  have h1 : l.filter (fun x => x.id != e.id) = l := by
    induction l with
    | nil => rfl
    | cons a t ih =>
      have ha : (a.id != e.id) = true := by
        simpa using hfresh a (List.mem_cons_self a t)
      simp only [List.filter_cons, ha, if_pos trivial]
      rw [ih fun x hx => hfresh x (List.mem_cons_of_mem a hx)]
  have h2 : ([e] : List LedgerEntry).filter (fun x => x.id != e.id) = [] := by
    simp
  rw [h1, h2, List.append_nil]

/-- Evaluation of a successful one-line-cart sale: the handler inserts the
sale row and then decrements the (uniquely identified, sufficiently
stocked) item. -/
lemma post_singleton_eq (db : DB) (item : InventoryItem) (q : Int) (eid : Nat)
    (pm : String)
    (hmem : item ∈ db.inventory)
    (huniq : ∀ x ∈ db.inventory, x.id = item.id → x = item)
    (hstock : q ≤ item.quantity) :
    handleFinalizeSale db [⟨item, q⟩] [eid] pm =
      ⟨true, updateQuantity (insertLedger db [mkSaleEntry eid pm ⟨item, q⟩]) item.id
        (item.quantity - q)⟩ := by
  have h0 : handleFinalizeSale db [⟨item, q⟩] [eid] pm =
      decrementLoop (insertLedger db [mkSaleEntry eid pm ⟨item, q⟩]) [⟨item, q⟩] := rfl
  have hfetch : fetchQuantity (insertLedger db [mkSaleEntry eid pm ⟨item, q⟩]) item.id =
      some item.quantity :=
    fetch_eq _ item hmem huniq
  have h1 : decrementLoop (insertLedger db [mkSaleEntry eid pm ⟨item, q⟩]) [⟨item, q⟩] =
      match fetchQuantity (insertLedger db [mkSaleEntry eid pm ⟨item, q⟩]) item.id with
      | none => ⟨false, insertLedger db [mkSaleEntry eid pm ⟨item, q⟩]⟩
      | some currentStock =>
        if currentStock < q then ⟨false, insertLedger db [mkSaleEntry eid pm ⟨item, q⟩]⟩
        else decrementLoop
          (updateQuantity (insertLedger db [mkSaleEntry eid pm ⟨item, q⟩]) item.id
            (currentStock - q)) [] := rfl
  have h2 : (match some item.quantity with
      | none => (⟨false, insertLedger db [mkSaleEntry eid pm ⟨item, q⟩]⟩ : TxOutcome)
      | some currentStock =>
        if currentStock < q then ⟨false, insertLedger db [mkSaleEntry eid pm ⟨item, q⟩]⟩
        else decrementLoop
          (updateQuantity (insertLedger db [mkSaleEntry eid pm ⟨item, q⟩]) item.id
            (currentStock - q)) []) =
      (if item.quantity < q then
        (⟨false, insertLedger db [mkSaleEntry eid pm ⟨item, q⟩]⟩ : TxOutcome)
      else decrementLoop
        (updateQuantity (insertLedger db [mkSaleEntry eid pm ⟨item, q⟩]) item.id
          (item.quantity - q)) []) := rfl
  rw [h0, h1, hfetch, h2, if_neg (not_lt.mpr hstock)]
  rfl

/-- Evaluation of the reversal of the just-posted sale row against the
post-state of `post_singleton_eq`: the restore re-reads the decremented
quantity, adds the recorded quantity back, and the delete removes the
appended row, restoring the store exactly. -/
lemma reverse_after_post_eq (db : DB) (item : InventoryItem) (q : Int) (eid : Nat)
    (pm : String)
    (hmem : item ∈ db.inventory)
    (huniq : ∀ x ∈ db.inventory, x.id = item.id → x = item)
    (hfresh : ∀ x ∈ db.ledger, x.id ≠ eid)
    (hq : 0 < q) :
    handleReverseSale
      (updateQuantity (insertLedger db [mkSaleEntry eid pm ⟨item, q⟩]) item.id
        (item.quantity - q))
      (mkSaleEntry eid pm ⟨item, q⟩) = ⟨true, db⟩ := by
  have hmem1 : item ∈ (insertLedger db [mkSaleEntry eid pm ⟨item, q⟩]).inventory := hmem
  have huniq1 : ∀ x ∈ (insertLedger db [mkSaleEntry eid pm ⟨item, q⟩]).inventory,
      x.id = item.id → x = item := huniq
  have hq' : (q != 0) = true := by
    have : q ≠ 0 := by omega
    simpa using this
  have h0 : handleReverseSale
      (updateQuantity (insertLedger db [mkSaleEntry eid pm ⟨item, q⟩]) item.id
        (item.quantity - q))
      (mkSaleEntry eid pm ⟨item, q⟩) =
      (if q != 0 then
        match fetchQuantity
          (updateQuantity (insertLedger db [mkSaleEntry eid pm ⟨item, q⟩]) item.id
            (item.quantity - q)) item.id with
        | none => ⟨false,
            updateQuantity (insertLedger db [mkSaleEntry eid pm ⟨item, q⟩]) item.id
              (item.quantity - q)⟩
        | some currentQty => ⟨true,
            deleteLedger
              (updateQuantity
                (updateQuantity (insertLedger db [mkSaleEntry eid pm ⟨item, q⟩]) item.id
                  (item.quantity - q)) item.id (currentQty + q))
              eid⟩
      else ⟨true,
        deleteLedger
          (updateQuantity (insertLedger db [mkSaleEntry eid pm ⟨item, q⟩]) item.id
            (item.quantity - q)) eid⟩) := rfl
  have hfetch : fetchQuantity
      (updateQuantity (insertLedger db [mkSaleEntry eid pm ⟨item, q⟩]) item.id
        (item.quantity - q)) item.id = some (item.quantity - q) :=
    fetch_after_update _ item (item.quantity - q) hmem1 huniq1
  rw [h0, if_pos hq', hfetch]
  have harith : item.quantity - q + q = item.quantity := by omega
  have h1 : (match some (item.quantity - q) with
      | none => (⟨false,
          updateQuantity (insertLedger db [mkSaleEntry eid pm ⟨item, q⟩]) item.id
            (item.quantity - q)⟩ : TxOutcome)
      | some currentQty => ⟨true,
          deleteLedger
            (updateQuantity
              (updateQuantity (insertLedger db [mkSaleEntry eid pm ⟨item, q⟩]) item.id
                (item.quantity - q)) item.id (currentQty + q))
            eid⟩) =
      ⟨true,
        deleteLedger
          (updateQuantity
            (updateQuantity (insertLedger db [mkSaleEntry eid pm ⟨item, q⟩]) item.id
              (item.quantity - q)) item.id (item.quantity - q + q))
          eid⟩ := rfl
  rw [h1, harith,
    update_update (insertLedger db [mkSaleEntry eid pm ⟨item, q⟩]) item.id
      (item.quantity - q) item.quantity,
    update_to_orig (insertLedger db [mkSaleEntry eid pm ⟨item, q⟩]) item huniq1]
  have hdel : deleteLedger (insertLedger db [mkSaleEntry eid pm ⟨item, q⟩]) eid = db := by
    show (⟨db.inventory,
        (db.ledger ++ [mkSaleEntry eid pm ⟨item, q⟩]).filter
          (fun x => x.id != (mkSaleEntry eid pm ⟨item, q⟩).id)⟩ : DB) = db
    rw [filter_append_fresh db.ledger (mkSaleEntry eid pm ⟨item, q⟩) hfresh]
  rw [hdel]

/-- C5: for every store state and every one-line sale that succeeds in it
(existing, uniquely-keyed item with sufficient stock; fresh ledger id;
positive quantity), the post succeeds and immediately reversing the
created ledger row reports success and returns the store — inventory and
ledger — to exactly the state before the post. -/
theorem C5_post_reverse_roundtrip (db : DB) (item : InventoryItem) (q : Int)
    (eid : Nat) (pm : String)
    (hmem : item ∈ db.inventory)
    (huniq : ∀ x ∈ db.inventory, x.id = item.id → x = item)
    (hfresh : ∀ x ∈ db.ledger, x.id ≠ eid)
    (hq : 0 < q) (hstock : q ≤ item.quantity) :
    (handleFinalizeSale db [⟨item, q⟩] [eid] pm).success = true ∧
    handleReverseSale (handleFinalizeSale db [⟨item, q⟩] [eid] pm).db
      (mkSaleEntry eid pm ⟨item, q⟩) = ⟨true, db⟩ := by
  have hpost := post_singleton_eq db item q eid pm hmem huniq hstock
  refine ⟨?_, ?_⟩
  · rw [hpost]
  · rw [hpost]
    exact reverse_after_post_eq db item q eid pm hmem huniq hfresh hq

/-- Witness for C5: a concrete sale of 2 units against stock 5, entry id
100, round-trips back to the initial store. -/
theorem C5_roundtrip_witness :
    (handleFinalizeSale (storeWith 5) [⟨oilFilter 5, 2⟩] [100] "Cash").success = true ∧
    handleReverseSale (handleFinalizeSale (storeWith 5) [⟨oilFilter 5, 2⟩] [100] "Cash").db
      (mkSaleEntry 100 "Cash" ⟨oilFilter 5, 2⟩) = ⟨true, storeWith 5⟩ :=
  C5_post_reverse_roundtrip (storeWith 5) (oilFilter 5) 2 100 "Cash"
    (by decide) (by decide) (by decide) (by decide) (by decide)

/-- A quantity update with a non-negative value keeps all quantities
non-negative. -/
lemma nonneg_update (db : DB) (iid : Nat) (v : Int)
    (hdb : NonnegStock db) (hv : 0 ≤ v) :
    NonnegStock (updateQuantity db iid v) := by
  intro it hit
  obtain ⟨x, hx, hfx⟩ := List.mem_map.mp hit
  by_cases h : (x.id == iid) = true
  · rw [if_pos h] at hfx
    rw [← hfx]
    exact hv
  · rw [if_neg h] at hfx
    rw [← hfx]
    exact hdb x hx

/-- A successfully fetched quantity is the quantity of some stored row,
hence non-negative under the invariant. -/
lemma nonneg_fetch (db : DB) (iid : Nat) (cur : Int)
    (hdb : NonnegStock db) (h : fetchQuantity db iid = some cur) : 0 ≤ cur := by
  unfold fetchQuantity at h
  cases hfind : db.inventory.find? (fun it => it.id == iid) with
  | none =>
    rw [hfind] at h
    cases h
  | some it =>
    rw [hfind] at h
    have hq : it.quantity = cur := by simpa using h
    rw [← hq]
    exact hdb it (List.mem_of_find?_eq_some hfind)

/-- The check-and-decrement loop of `handleFinalizeSale` never writes a
negative quantity: the write happens only when the freshly read stock is
at least the requested quantity. -/
lemma nonneg_decrementLoop (cart : List CartLine) (db : DB) (hdb : NonnegStock db) :
    NonnegStock (decrementLoop db cart).db := by
  induction cart generalizing db with
  | nil => exact hdb
  | cons c rest ih =>
    show NonnegStock (match fetchQuantity db c.item.id with
      | none => (⟨false, db⟩ : TxOutcome)
      | some currentStock =>
        if currentStock < c.quantity then ⟨false, db⟩
        else decrementLoop (updateQuantity db c.item.id (currentStock - c.quantity)) rest).db
    cases hfq : fetchQuantity db c.item.id with
    | none => exact hdb
    | some currentStock =>
      have hred : (match some currentStock with
          | none => (⟨false, db⟩ : TxOutcome)
          | some cs =>
            if cs < c.quantity then ⟨false, db⟩
            else decrementLoop (updateQuantity db c.item.id (cs - c.quantity)) rest) =
          (if currentStock < c.quantity then (⟨false, db⟩ : TxOutcome)
           else decrementLoop
             (updateQuantity db c.item.id (currentStock - c.quantity)) rest) := rfl
      rw [hred]
      by_cases hlt : currentStock < c.quantity
      · rw [if_pos hlt]
        exact hdb
      · rw [if_neg hlt]
        exact ih _ (nonneg_update db c.item.id _ hdb
          (by
            have := nonneg_fetch db c.item.id currentStock hdb hfq
            omega))

/-- Posting a sale never drives any on-hand quantity negative. -/
lemma nonneg_post (db : DB) (cart : List CartLine) (eids : List Nat) (pm : String)
    (hdb : NonnegStock db) :
    NonnegStock (handleFinalizeSale db cart eids pm).db := by
  unfold handleFinalizeSale
  by_cases h : cart.isEmpty
  · rw [if_pos h]
    exact hdb
  · rw [if_neg h]
    exact nonneg_decrementLoop cart _ hdb

/-- Reversing with a non-negative recorded quantity never drives any
on-hand quantity negative. -/
lemma nonneg_reverse (db : DB) (sale : LedgerEntry)
    (hdb : NonnegStock db) (hwf : 0 ≤ sale.quantity.getD 0) :
    NonnegStock (handleReverseSale db sale).db := by
  cases hiid : sale.inventory_item_id with
  | none =>
    have hred : handleReverseSale db sale = ⟨true, deleteLedger db sale.id⟩ := by
      unfold handleReverseSale
      rw [hiid]
    rw [hred]
    intro it hit
    exact hdb it hit
  | some iid =>
    cases hqv : sale.quantity with
    | none =>
      have hred : handleReverseSale db sale = ⟨true, deleteLedger db sale.id⟩ := by
        unfold handleReverseSale
        rw [hiid, hqv]
      rw [hred]
      intro it hit
      exact hdb it hit
    | some q =>
      have hred : handleReverseSale db sale =
          (if (q != 0) = true then
            match fetchQuantity db iid with
            | none => (⟨false, db⟩ : TxOutcome)
            | some currentQty =>
              ⟨true, deleteLedger (updateQuantity db iid (currentQty + q)) sale.id⟩
          else ⟨true, deleteLedger db sale.id⟩) := by
        unfold handleReverseSale
        rw [hiid, hqv]
      rw [hred]
      by_cases hz : (q != 0) = true
      · rw [if_pos hz]
        cases hfq : fetchQuantity db iid with
        | none => exact hdb
        | some currentQty =>
          have hred2 : (match some currentQty with
              | none => (⟨false, db⟩ : TxOutcome)
              | some c =>
                ⟨true, deleteLedger (updateQuantity db iid (c + q)) sale.id⟩) =
              (⟨true, deleteLedger (updateQuantity db iid (currentQty + q)) sale.id⟩ :
                TxOutcome) := rfl
          rw [hred2]
          have h0 : (0 : Int) ≤ q := by
            rw [hqv] at hwf
            simpa using hwf
          have h1 := nonneg_fetch db iid currentQty hdb hfq
          intro it hit
          exact nonneg_update db iid (currentQty + q) hdb (by omega) it hit
      · rw [if_neg hz]
        intro it hit
        exact hdb it hit

/-- C6: starting from any store whose on-hand quantities are all
non-negative, any finite sequence of sale posts and reversals (the
reversals carrying non-negative recorded quantities, as every entry the
repository writes does) keeps every on-hand quantity non-negative; since
the hypothesis applies to every prefix, the invariant holds before and
after every operation of the sequence. -/
theorem C6_quantity_nonneg_preserved (db : DB) (ops : List EngineOp)
    (hdb : NonnegStock db) (hops : ∀ op ∈ ops, wfOp op) :
    NonnegStock (runOps db ops) := by
  induction ops generalizing db with
  | nil => exact hdb
  | cons op rest ih =>
    refine ih _ ?_ fun o ho => hops o (List.mem_cons_of_mem _ ho)
    cases op with
    | post cart eids pm => exact nonneg_post db cart eids pm hdb
    | reverse s =>
      exact nonneg_reverse db s hdb (hops _ (List.mem_cons_self _ _))

/-- Witness for C6: a concrete run — sell 2 of 5 units, reverse the entry,
then sell 4 units — leaves every quantity non-negative. -/
theorem C6_nonneg_witness :
    NonnegStock (runOps (storeWith 5)
      [.post [⟨oilFilter 5, 2⟩] [100] "Cash",
       .reverse (mkSaleEntry 100 "Cash" ⟨oilFilter 5, 2⟩),
       .post [⟨oilFilter 5, 4⟩] [101] "Card"]) :=
  C6_quantity_nonneg_preserved (storeWith 5) _
    (by intro it hit; fin_cases hit; decide)
    (by
      intro op hop
      fin_cases hop
      · trivial
      · show (0 : Int) ≤ ((some 2 : Option Int).getD 0)
        decide
      · trivial)

/-- C9: adjusting an entry's amount changes only the `amount` field of the
rows matching the given id — every other field of every ledger row, every
non-matching row entirely, and the whole inventory are unchanged. -/
theorem C9_adjust_touches_only_amount (db : DB) (eid : Nat) (amt : Int) :
    (handleUpdateAmount db eid amt).inventory = db.inventory ∧
    List.Forall₂ (fun e e' : LedgerEntry =>
        e'.id = e.id ∧ e'.category_id = e.category_id ∧
        e'.inventory_item_id = e.inventory_item_id ∧ e'.quantity = e.quantity ∧
        e'.selling_price = e.selling_price ∧ e'.cost = e.cost ∧
        e'.transaction_type = e.transaction_type ∧ e'.fund_source = e.fund_source ∧
        e'.amount = (if e.id = eid then some amt else e.amount))
      db.ledger (handleUpdateAmount db eid amt).ledger := by
  refine ⟨rfl, ?_⟩
  show List.Forall₂ _ db.ledger
    (db.ledger.map fun e => if e.id == eid then { e with amount := some amt } else e)
  induction db.ledger with
  | nil => exact List.Forall₂.nil
  | cons e t ih =>
    rw [List.map_cons]
    refine List.Forall₂.cons ?_ ih
    by_cases h : (e.id == eid) = true
    · have he : e.id = eid := by simpa using h
      rw [if_pos h]
      exact ⟨rfl, rfl, rfl, rfl, rfl, rfl, rfl, rfl, by rw [if_pos he]⟩
    · have he : ¬ e.id = eid := by simpa using h
      rw [if_neg h]
      exact ⟨rfl, rfl, rfl, rfl, rfl, rfl, rfl, rfl, by rw [if_neg he]⟩

/-- C10: reversing a sale row whose `inventory_item_id` or recorded
`quantity` is absent skips the stock restoration silently — no inventory
quantity changes — while the deletion still proceeds and the handler
reports success. -/
theorem C10_reverse_without_item_ref_deletes_only (db : DB) (sale : LedgerEntry)
    (hsale : sale.transaction_type = .sale)
    (habsent : sale.inventory_item_id = none ∨ sale.quantity = none) :
    (handleReverseSale db sale).success = true ∧
    (handleReverseSale db sale).db.inventory = db.inventory ∧
    (∀ e ∈ db.ledger, e.id ≠ sale.id → e ∈ (handleReverseSale db sale).db.ledger) ∧
    ∀ e ∈ (handleReverseSale db sale).db.ledger, e.id ≠ sale.id := by
  have hred : handleReverseSale db sale = ⟨true, deleteLedger db sale.id⟩ := by
    cases hiid : sale.inventory_item_id with
    | none =>
      unfold handleReverseSale
      rw [hiid]
    | some iid =>
      rcases habsent with h | h
      · rw [h] at hiid
        cases hiid
      · unfold handleReverseSale
        rw [hiid, h]
  rw [hred]
  refine ⟨rfl, rfl, ?_, ?_⟩
  · intro e he hne
    show e ∈ db.ledger.filter (fun x => x.id != sale.id)
    exact List.mem_filter.mpr ⟨he, by simpa using hne⟩
  · intro e he
    have he' : e ∈ db.ledger.filter (fun x => x.id != sale.id) := he
    simpa using (List.mem_filter.mp he').2

/-- A sale row, as held by the archive view, whose inventory reference was
lost: no `inventory_item_id`. -/
def orphanSaleRow : LedgerEntry :=
  { id := 9, category_id := 1, inventory_item_id := none, quantity := some 3,
    amount := some 300, selling_price := none, cost := none,
    transaction_type := .sale, fund_source := "Cash" }

/-- Witness for C10: reversing the concrete orphaned sale row reports
success, leaves the single inventory row untouched, and deletes exactly
that row from the ledger. -/
theorem C10_orphan_reverse_witness :
    (handleReverseSale { inventory := [oilFilter 5], ledger := [orphanSaleRow] }
      orphanSaleRow).success = true ∧
    (handleReverseSale { inventory := [oilFilter 5], ledger := [orphanSaleRow] }
      orphanSaleRow).db.inventory =
      (DB.mk [oilFilter 5] [orphanSaleRow]).inventory ∧
    (∀ e ∈ (DB.mk [oilFilter 5] [orphanSaleRow]).ledger, e.id ≠ orphanSaleRow.id →
      e ∈ (handleReverseSale { inventory := [oilFilter 5], ledger := [orphanSaleRow] }
        orphanSaleRow).db.ledger) ∧
    ∀ e ∈ (handleReverseSale { inventory := [oilFilter 5], ledger := [orphanSaleRow] }
      orphanSaleRow).db.ledger, e.id ≠ orphanSaleRow.id :=
  C10_reverse_without_item_ref_deletes_only
    { inventory := [oilFilter 5], ledger := [orphanSaleRow] } orphanSaleRow
    rfl (Or.inl rfl)

end RetailOS
